import Mathlib

/-!
# Verification of the deej slider-to-session routing engine

Shallow embedding of the core of the deej repository
(`pkg/deej/serial.go`, `pkg/deej/session_map.go`, `pkg/deej/slider_map.go`)
and proofs about it.

Modelling conventions:
* Go strings are Lean `String`s; Go `strings.Split`, `strings.TrimSpace`,
  `strings.HasPrefix`, `strings.TrimPrefix` and `strings.ToLower` are embedded
  as executable functions over `List Char` below (`goSplit`, `goTrimSpace`,
  `goHasPrefix`, `goTrimPrefix`, `goToLower`).  The embeddings are exact for
  the ASCII/Latin-1 strings the protocol uses (Go's versions additionally
  handle exotic Unicode whitespace and case, which never occurs here).
* Go `float32` arithmetic is embedded as exact rational arithmetic (`ℚ`).
  None of the verified properties depends on `float32` rounding: the sentinel
  `-1.0` and the values compared for equality are exactly representable, and
  no claim sits on a floating-point threshold boundary.
* Go machine integers are embedded as `Int` with the explicit two's-complement
  clamping that `strconv.Atoi` performs on overflow.
* Goroutine side effects (delivered events, dispatched volume calls,
  scheduled refreshes, released sessions) are returned as lists, in program
  order; channel sends with drop-on-full can only lose a suffix of what is
  produced, so list-level statements are about what the code offers to each
  subscriber.
-/

namespace Deej

/-- Character class of Go's `unicode.IsSpace` restricted to Latin-1
(space, \t, \n, \v, \f, \r, NEL, NBSP); exact for every byte the serial
protocol can carry. Used by the embedding of `strings.TrimSpace`. -/
def isGoSpace (c : Char) : Bool :=
  [9, 10, 11, 12, 13, 32, 133, 160].contains c.toNat

/-- Embedding of Go `strings.TrimSpace`: drop leading and trailing
whitespace. -/
def goTrimSpace (s : String) : String :=
  ⟨((s.data.dropWhile isGoSpace).reverse.dropWhile isGoSpace).reverse⟩

/-- Embedding of Go `strings.HasPrefix`. -/
def goHasPrefix (s pre : String) : Bool :=
  pre.data.isPrefixOf s.data

/-- Embedding of Go `strings.TrimPrefix`. -/
def goTrimPrefix (s pre : String) : String :=
  if goHasPrefix s pre then ⟨s.data.drop pre.data.length⟩ else s

/-- ASCII lower-casing of one character (Go `strings.ToLower` on the
ASCII range actually used by targets and session keys). -/
def charToLower (c : Char) : Char :=
  if 'A' ≤ c ∧ c ≤ 'Z' then Char.ofNat (c.toNat + 32) else c

/-- Embedding of Go `strings.ToLower` (ASCII range). -/
def goToLower (s : String) : String :=
  ⟨s.data.map charToLower⟩

/-- Split a character list on a separator character; mirrors Go
`strings.Split` with a one-character separator (returns `[[]]` on empty
input, keeps empty fields). -/
def splitOnChar (sep : Char) : List Char → List (List Char)
  | [] => [[]]
  | c :: rest =>
    match splitOnChar sep rest with
    | [] => [[]]
    | g :: gs => if c = sep then [] :: g :: gs else (c :: g) :: gs

/-- Embedding of Go `strings.Split` for a one-character separator. -/
def goSplit (s : String) (sep : Char) : List String :=
  (splitOnChar sep s.data).map (fun cs => ⟨cs⟩)

/-- Value of a non-empty all-decimal-digit character list, `none` otherwise.
Helper for the `strconv.Atoi` embedding. -/
def parseDecDigits (cs : List Char) : Option Nat :=
  if cs = [] then none
  else if cs.all (·.isDigit) then
    some (cs.foldl (fun a c => a * 10 + (c.toNat - '0'.toNat)) 0)
  else none

/-- Embedding of Go `strconv.Atoi` with the error discarded, exactly as
`serial.go` uses it (`number, _ := strconv.Atoi(...)`): optional sign then
decimal digits; syntax errors yield 0; out-of-range values are clamped to
`math.MaxInt64` / `math.MinInt64` (the values `strconv.ParseInt` returns
together with `ErrRange` on a 64-bit platform). -/
def goAtoi (s : String) : Int :=
  let signed : Bool × List Char :=
    match s.data with
    | '+' :: rest => (false, rest)
    | '-' :: rest => (true, rest)
    | cs => (false, cs)
  match parseDecDigits signed.2 with
  | none => 0
  | some n =>
    if signed.1 then
      (if (2 : Int) ^ 63 < (n : Int) then -((2 : Int) ^ 63) else -(n : Int))
    else
      (if (2 : Int) ^ 63 ≤ (n : Int) then (2 : Int) ^ 63 - 1 else (n : Int))

/-- One group of the slider-line regex: `\d{1,4}` (1 to 4 ASCII digits). -/
def isDigitGroup (g : List Char) : Bool :=
  decide (1 ≤ g.length) && decide (g.length ≤ 4) && g.all (·.isDigit)

/-- Embedding of `expectedLinePattern = ^\d{1,4}(\|\d{1,4})*\r\n$`
(serial.go line 48).  A string matches iff it is `body ++ "\r\n"` where
`body` is a `|`-separated list of 1-4 digit groups; equivalently: length at
least 2, last char `\n`, second-to-last `\r`, and the prefix before them
splits on `|` into digit groups (digit groups contain neither `\r` nor `\n`,
so the decomposition is unique and matches the anchored regex). -/
def matchesExpectedLinePattern (s : String) : Bool :=
  let cs := s.data
  let n := cs.length
  decide (2 ≤ n) && (cs.getLast? == some '\n') && (cs.getD (n - 2) ' ' == '\r') &&
    (splitOnChar '|' (cs.take (n - 2))).all isDigitGroup

/-- The claim's legacy bare pattern `^\d{1,4}(\|\d{1,4})*$` (no CR/LF),
i.e. what spec section 4.1 says should be recognised after trimming. -/
def matchesBareSliderPattern (s : String) : Bool :=
  (splitOnChar '|' s.data).all isDigitGroup

/-- Classification of one serial line by `handleLine` (serial.go 433-494);
constructors record which processing path the line is forwarded to. -/
inductive HandleLineResult where
  | startupMsg
  | slidersMsg (payload : String)
  | responseMsg (rtype : String) (args : List String)
  | statusMsg (status : String)
  | legacySliders (line : String)
  | ignored
deriving DecidableEq, Repr

/-- The old-format fallback at the end of `handleLine` (serial.go 472-494):
a `status:` line, else the legacy slider-line regex check, else discard. -/
def handleLineOldFormat (l : String) : HandleLineResult :=
  if goHasPrefix l "status:" then
    .statusMsg (goTrimSpace (goTrimPrefix l "status:"))
  else if matchesExpectedLinePattern l then .legacySliders l
  else .ignored

/-- Embedding of `handleLine` (serial.go 433-494).  The line is first
trimmed (`strings.TrimSpace`); `deej:`-framed messages are split on `:`;
a `switch` case that matches always returns, and an unknown message type
falls through to the old-format handling, exactly as in the source. -/
def handleLine (line : String) : HandleLineResult :=
  let l := goTrimSpace line
  if goHasPrefix l "deej:" then
    let parts := goSplit l ':'
    if parts.length < 3 then .ignored
    else
      let messageType := parts.getD 2 ""
      if messageType = "startup" then .startupMsg
      else if messageType = "sliders" then
        (if 4 ≤ parts.length then .slidersMsg (parts.getD 3 "") else .ignored)
      else if messageType = "response" then
        (if 4 ≤ parts.length then .responseMsg (parts.getD 3 "") (parts.drop 4)
         else .ignored)
      else handleLineOldFormat l
  else handleLineOldFormat l

/-- True iff a `handleLine` result is the legacy bare-slider-line path
(the call `sio.processSliderData(logger, line)` at serial.go line 492). -/
def isLegacyForward : HandleLineResult → Bool
  | .legacySliders _ => true
  | _ => false

/-! ## Slider state tracker (`processSliderData`, serial.go 496-591) -/

/-- The two configuration values `processSliderData` reads
(`sio.deej.config.InvertSliders`, `sio.deej.config.NoiseReductionLevel`). -/
structure DeejConfig where
  invertSliders : Bool
  noiseReductionLevel : String
deriving DecidableEq, Repr

/-- `SliderMoveEvent` (serial.go 43-46).  The Go `SliderID` is the
non-negative loop index, embedded as `Nat`; `PercentValue` is a `float32`,
embedded as `ℚ`. -/
structure SliderMoveEvent where
  sliderID : Nat
  percentValue : ℚ
deriving DecidableEq, Repr

/-- The mutable per-connection slider state
(`lastKnownNumSliders`, `currentSliderPercentValues`, serial.go 35-36). -/
structure SerialState where
  lastKnownNumSliders : Nat
  currentSliderPercentValues : List ℚ
deriving DecidableEq, Repr

/-- Modelled from the spec: `util.NormalizeScalar` is not under `src/`
(only its call sites in serial.go are).  The serial.go call-site comment
("normalize it to an actual volume scalar between 0.0 and 1.0 with 2 points
of precision") and spec section 4.2 step 3 (a normalization that snaps
values within a small epsilon of 0 or 1 to exactly 0 or 1) describe it:
clamp to `[0, 1]` and round to two decimal places (which snaps everything
within 0.005 of an extreme to that extreme). -/
def normalizeScalar (v : ℚ) : ℚ :=
  ((round ((max 0 (min 1 v)) * 100) : ℤ) : ℚ) / 100

/-- Modelled from the spec: the noise-reduction threshold belongs to "a
small enumerated set of sensitivity levels — low/default/high" (spec
section 4.2 step 4).  Representative positive magnitudes; no verified
property depends on the exact numbers, only on their non-negativity. -/
def noiseReductionThreshold (level : String) : ℚ :=
  if level = "low" then 15 / 1000
  else if level = "high" then 35 / 1000
  else 25 / 1000

/-- Modelled from the spec: `util.SignificantlyDifferent` is not under
`src/`.  Spec section 4.2 step 4: a move event is emitted iff the slot is
unset or `|normalized - current[i]| > noiseReductionThreshold`. -/
def significantlyDifferent (oldV newV : ℚ) (level : String) : Bool :=
  decide (noiseReductionThreshold level < |newV - oldV|)

/-- The per-reading value computation of the loop body (serial.go 532-541):
`dirtyFloat = number / 1023`, then `util.NormalizeScalar`, then the
`InvertSliders` complement. -/
def normalizedOfInt (cfg : DeejConfig) (number : Int) : ℚ :=
  let dirtyFloat : ℚ := (number : ℚ) / 1023
  let normalized := normalizeScalar dirtyFloat
  if cfg.invertSliders then 1 - normalized else normalized

/-- Same computation starting from the raw field string. -/
def normalizedOf (cfg : DeejConfig) (sv : String) : ℚ :=
  normalizedOfInt cfg (goAtoi sv)

/-- The emission condition of serial.go 546-547:
`currentSliderPercentValues[sliderIdx] == -1.0 ||
 util.SignificantlyDifferent(current, normalizedScalar, noiseReductionLevel)`. -/
def emitCond (cfg : DeejConfig) (oldV nv : ℚ) : Bool :=
  decide (oldV = -1) || significantlyDifferent oldV nv cfg.noiseReductionLevel

/-- The resize-and-reset step of serial.go 506-515: when the field count
differs from `lastKnownNumSliders`, store the new count and reset every
slot to the impossible sentinel `-1.0`. -/
def resyncSliderState (st : SerialState) (numSliders : Nat) : SerialState :=
  if numSliders ≠ st.lastKnownNumSliders then
    ⟨numSliders, List.replicate numSliders (-1)⟩
  else st

/-- The `for sliderIdx, stringValue := range splitLine` loop of serial.go
520-561.  `none` models the early `return` on a malformed first field
(serial.go 527-530), which discards the whole frame before anything is
delivered; otherwise returns the updated slot array and the collected
`moveEvents` in ascending-index order. -/
def sliderLoop (cfg : DeejConfig) :
    List String → Nat → List ℚ → List SliderMoveEvent →
    Option (List ℚ × List SliderMoveEvent)
  | [], _, cur, acc => some (cur, acc.reverse)
  | sv :: rest, idx, cur, acc =>
    let number := goAtoi sv
    if idx = 0 ∧ 1023 < number then none
    else
      let nv := normalizedOfInt cfg number
      if emitCond cfg (cur.getD idx 0) nv then
        sliderLoop cfg rest (idx + 1) (cur.set idx nv) (⟨idx, nv⟩ :: acc)
      else
        sliderLoop cfg rest (idx + 1) cur acc

/-- Embedding of `processSliderData` (serial.go 496-591): split the payload
on `|`, resync the state if the count changed, run the per-slider loop, and
deliver the collected move events (an aborted frame delivers nothing but
keeps the state mutations made so far, which can only be the resync). -/
def processSliderData (cfg : DeejConfig) (st : SerialState)
    (sliderData : String) : SerialState × List SliderMoveEvent :=
  let splitLine := goSplit sliderData '|'
  let numSliders := splitLine.length
  let st1 := resyncSliderState st numSliders
  match sliderLoop cfg splitLine 0 st1.currentSliderPercentValues [] with
  | none => (st1, [])
  | some (cur, events) => (⟨st1.lastKnownNumSliders, cur⟩, events)

/-- Reference description of what one full accepted loop run emits: one
event per index whose `emitCond` holds, judged against the pre-loop slot
array (the loop only writes slots it has already passed, so slots at or
beyond the current index still hold their pre-loop values when reached). -/
def newEventsFrom (cfg : DeejConfig) :
    List String → Nat → List ℚ → List SliderMoveEvent
  | [], _, _ => []
  | sv :: rest, idx, cur =>
    (if emitCond cfg (cur.getD idx 0) (normalizedOf cfg sv) then
      [⟨idx, normalizedOf cfg sv⟩] else []) ++
      newEventsFrom cfg rest (idx + 1) cur

/-- The default configuration used in the concrete scenarios:
sliders not inverted, default noise-reduction level. -/
def cfgDefault : DeejConfig := ⟨false, "default"⟩

/-- The inverted-sliders configuration of the second C4 scenario. -/
def cfgInverted : DeejConfig := ⟨true, "default"⟩

/-! ## Session map (`session_map.go`, `slider_map.go`)

The audio backend's `Session` interface is opaque to the session map except
for `Key()`; a session is embedded as its key.  The slider mapping snapshot
(`sliderMap.m : map[int][]string`) is embedded as an association list
`List (Nat × List String)` with distinct keys; only existence/lookup over
it matters here, both order-independent.  `time.Time` is embedded as `ℚ`
(seconds); `Add` is `+` and `After` is `>`. -/

/-- An audio session handle as seen by the session map: its stable key. -/
structure Session where
  key : String
deriving DecidableEq, Repr

/-- The mutable fields of `sessionMap` that the verified operations touch
(`m`, `lastSessionRefresh`, `unmappedSessions`; session_map.go 15-26). -/
structure SessionMapState where
  m : List (String × List Session)
  lastSessionRefresh : ℚ
  unmappedSessions : List Session
deriving DecidableEq, Repr

/-- `masterSessionName` (session_map.go 29). -/
def masterSessionName : String := "master"

/-- `systemSessionName` (session_map.go 30). -/
def systemSessionName : String := "system"

/-- `inputSessionName` (session_map.go 31). -/
def inputSessionName : String := "mic"

/-- `specialTargetTransformPrefix` (session_map.go 35). -/
def specialTargetTransformPrefix : String := "deej."

/-- `specialTargetCurrentWindow` (session_map.go 38). -/
def specialTargetCurrentWindow : String := "current"

/-- `specialTargetAllUnmapped` (session_map.go 41). -/
def specialTargetAllUnmapped : String := "unmapped"

/-- `minTimeBetweenSessionRefreshes = time.Second * 5` (session_map.go 46),
in seconds. -/
def minTimeBetweenSessionRefreshes : ℚ := 5

/-- Embedding of `deviceSessionKeyPattern = ^.+ \(.+\)$` (session_map.go
50).  A string matches iff it decomposes as `A ++ " (" ++ B ++ ")"` with
`A`, `B` non-empty and no newline anywhere (`.` does not match `\n` and
every character is consumed by a `.` or a literal): last character `)`,
and some position `i ≥ 1` with at least one character between `i + 2` and
the final `)` holds `" ("`. -/
def matchesDeviceSessionKeyPattern (s : String) : Bool :=
  let cs := s.data
  let n := cs.length
  cs.all (fun c => c != '\n') &&
    (decide (1 ≤ n) && (cs.getD (n - 1) ' ' == ')')) &&
    (List.range n).any (fun i =>
      decide (1 ≤ i) && decide (i + 4 ≤ n) &&
        (cs.getD i ' ' == ' ') && (cs.getD (i + 1) ' ' == '('))

/-- Embedding of `funk.UniqString`: keep the first occurrence of each
string, preserving order (used by the current-window transform). -/
def uniqString : List String → List String
  | [] => []
  | x :: xs => x :: uniqString (xs.filter (fun y => y != x))
termination_by l => l.length
decreasing_by
  simp only [List.length_cons]
  exact Nat.lt_succ_of_le (List.length_filter_le _ _)

/-- `targetHasSpecialTransform` (session_map.go 232-234). -/
def targetHasSpecialTransform (target : String) : Bool :=
  goHasPrefix target specialTargetTransformPrefix

/-- Embedding of `applyTargetTransform` (session_map.go 249-282).  The
current-window platform query `util.GetCurrentWindowProcessNames` is an
external capability; its successful result is the parameter `cw` (an error
returns `nil`, i.e. is the `cw = []` case). -/
def applyTargetTransform (cw : List String) (st : SessionMapState)
    (specialTargetName : String) : List String :=
  if specialTargetName = specialTargetCurrentWindow then
    uniqString (cw.map goToLower)
  else if specialTargetName = specialTargetAllUnmapped then
    st.unmappedSessions.map (·.key)
  else []

/-- Embedding of `resolveTarget` (session_map.go 236-247): lower-case the
target, apply a special transform when the (lower-cased) target has the
`deej.` prefix, otherwise return the single lower-cased literal key. -/
def resolveTarget (cw : List String) (st : SessionMapState)
    (target : String) : List String :=
  let t := goToLower target
  if targetHasSpecialTransform t then
    applyTargetTransform cw st (goTrimPrefix t specialTargetTransformPrefix)
  else [t]

/-- Embedding of `sessionMapped` (session_map.go 160-194).  The iterate
callback's `return` only exits the callback, so the loop computes the
existence of a configured, non-special target resolving to the session's
key.  NOTE: Go indexes `m.resolveTarget(target)[0]`, which panics when the
resolution is empty; this can only happen for a target that gains the
`deej.` prefix through lower-casing (e.g. `DEEJ.current`), and theorems
about this function carry a hypothesis excluding that configuration;
`headD ""` stands in for the panicking index. -/
def sessionMapped (cfg : List (Nat × List String)) (cw : List String)
    (st : SessionMapState) (session : Session) : Bool :=
  [masterSessionName, systemSessionName, inputSessionName].contains session.key ||
    matchesDeviceSessionKeyPattern session.key ||
    cfg.any (fun p => p.2.any (fun target =>
      !targetHasSpecialTransform target &&
        ((resolveTarget cw st target).headD "" == session.key)))

/-- Embedding of `sessionMap.add` (session_map.go 284-303): append the
session under its key, creating the entry if absent. -/
def mapAdd (mm : List (String × List Session)) (s : Session) :
    List (String × List Session) :=
  match mm.lookup s.key with
  | none => mm ++ [(s.key, [s])]
  | some _ => mm.map (fun p => if p.1 = s.key then (p.1, p.2 ++ [s]) else p)

/-- The loop body of `getAndAddSessions` (session_map.go 104-109): add the
session to the map, then record it as unmapped when `sessionMapped` is
false (checked against the state as built so far, exactly as the Go loop
does). -/
def addSessionStep (cfg : List (Nat × List String)) (cw : List String)
    (acc : SessionMapState) (s : Session) : SessionMapState :=
  let acc1 := { acc with m := mapAdd acc.m s }
  if sessionMapped cfg cw acc1 s then acc1
  else { acc1 with unmappedSessions := acc1.unmappedSessions ++ [s] }

/-- The whole of `getAndAddSessions` (success path): stamp the refresh
time, reset the unmapped snapshot, then run the loop above over the
enumerated sessions. -/
def getAndAddSessions (cfg : List (Nat × List String)) (cw : List String)
    (st : SessionMapState) (now : ℚ) (sessions : List Session) :
    SessionMapState :=
  let st0 : SessionMapState :=
    { st with lastSessionRefresh := now, unmappedSessions := [] }
  sessions.foldl (addSessionStep cfg cw) st0

/-- Embedding of `sessionMap.clear` (session_map.go 313-328): empty the
table; the second component lists the sessions it released. -/
def clearSessions (st : SessionMapState) : SessionMapState × List Session :=
  ({ st with m := [] }, st.m.flatMap (·.2))

/-- Embedding of `refreshSessions` (session_map.go 140-155): rate-limited
unless forced; otherwise clear-and-release then re-enumerate.  `now` is the
value of `time.Now()`, `backendSessions` the backend's enumeration result;
the second component lists the released sessions. -/
def refreshSessions (cfg : List (Nat × List String)) (cw : List String)
    (st : SessionMapState) (force : Bool) (now : ℚ)
    (backendSessions : List Session) : SessionMapState × List Session :=
  if force = false ∧ st.lastSessionRefresh + minTimeBetweenSessionRefreshes > now then
    (st, [])
  else
    let cleared := clearSessions st
    (getAndAddSessions cfg cw cleared.1 now backendSessions, cleared.2)

/-- One `SetVolume` invocation dispatched by `handleSliderMoveEvent`. -/
structure VolumeSetCall where
  target : String
  session : Session
  volume : ℚ
deriving DecidableEq, Repr

/-- A `refreshSessions(true)` scheduled after a delay by a failed
`SetVolume` (session_map.go 219-222). -/
structure ScheduledRefresh where
  delayMilliseconds : Nat
  force : Bool
deriving DecidableEq, Repr

/-- Embedding of `handleSliderMoveEvent` (session_map.go 196-230).  The
function returns no error; its effects are the dispatched `SetVolume`
calls (one goroutine per matching session, in program order) and the
delayed forced refreshes scheduled for the calls that fail.  `failing`
is the oracle saying which `SetVolume` calls the backend rejects. -/
def handleSliderMoveEvent (cfg : List (Nat × List String)) (cw : List String)
    (st : SessionMapState) (failing : VolumeSetCall → Bool)
    (event : SliderMoveEvent) : List VolumeSetCall × List ScheduledRefresh :=
  match cfg.lookup event.sliderID with
  | none => ([], [])
  | some targets =>
    let calls := targets.flatMap (fun target =>
      (resolveTarget cw st target).flatMap (fun resolvedTarget =>
        ((st.m.lookup resolvedTarget).getD []).map (fun s =>
          ⟨resolvedTarget, s, event.percentValue⟩)))
    (calls, (calls.filter failing).map (fun _ => ⟨100, true⟩))

/-- The claim's characterization of an unmapped session (claim C7 wording,
spec section 4.3): the key is not master/system/mic, does not match the
device-name pattern, and no configured non-special target (as the resolver
lower-cases it) equals it.  Stated independently of any session-map state
for comparison with the code's `sessionMapped`. -/
def specSessionMapped (cfg : List (Nat × List String)) (key : String) : Bool :=
  (key == masterSessionName || key == systemSessionName ||
      key == inputSessionName) ||
    matchesDeviceSessionKeyPattern key ||
    cfg.any (fun p => p.2.any (fun target =>
      !targetHasSpecialTransform target && (goToLower target == key)))


/-! ### Arithmetic evaluation lemmas (kernel reduction is not available
for `ℚ`, so concrete values are established through `norm_num`). -/

lemma round_rat_eq {q : ℚ} {n : ℤ} (h1 : (n : ℚ) ≤ q + 1 / 2)
    (h2 : q + 1 / 2 < (n : ℚ) + 1) : round q = n := by
  rw [round_eq]
  exact Int.floor_eq_iff.mpr ⟨h1, h2⟩

lemma normalizeScalar_eval {v : ℚ} {n : ℤ} (h0 : 0 ≤ v) (h1 : v ≤ 1)
    (hr : round (v * 100) = n) : normalizeScalar v = (n : ℚ) / 100 := by
  unfold normalizeScalar
  rw [min_eq_right h1, max_eq_right h0, hr]

lemma normalizeScalar_nonneg (v : ℚ) : 0 ≤ normalizeScalar v := by
  unfold normalizeScalar
  have h0 : (0 : ℚ) ≤ max 0 (min 1 v) * 100 := by positivity
  have : (0 : ℤ) ≤ round (max 0 (min 1 v) * 100) := by
    rw [round_eq]
    have : (0 : ℤ) ≤ ⌊(0 : ℚ)⌋ := by norm_num
    exact this.trans (Int.floor_mono (by linarith))
  positivity

lemma normalizeScalar_le_one (v : ℚ) : normalizeScalar v ≤ 1 := by
  unfold normalizeScalar
  have hle : max 0 (min 1 v) ≤ 1 := by
    rcases le_total 1 v with h | h
    · simp [min_eq_left h]
    · exact max_le (by norm_num) (min_le_left _ _)
  have : round (max 0 (min 1 v) * 100) ≤ 100 := by
    rw [round_eq]
    calc ⌊max 0 (min 1 v) * 100 + 1 / 2⌋ ≤ ⌊(100 : ℚ) + 1 / 2⌋ :=
          Int.floor_mono (by linarith)
      _ = 100 := by norm_num [Int.floor_eq_iff]
  rw [div_le_one (by norm_num)]
  exact_mod_cast this

lemma normalizedOfInt_nonneg (cfg : DeejConfig) (n : Int) :
    0 ≤ normalizedOfInt cfg n := by
  unfold normalizedOfInt
  split
  · linarith [normalizeScalar_le_one ((n : ℚ) / 1023)]
  · exact normalizeScalar_nonneg _

lemma normalizedOfInt_le_one (cfg : DeejConfig) (n : Int) :
    normalizedOfInt cfg n ≤ 1 := by
  unfold normalizedOfInt
  split
  · linarith [normalizeScalar_nonneg ((n : ℚ) / 1023)]
  · exact normalizeScalar_le_one _

lemma normalizedOfInt_ne_sentinel (cfg : DeejConfig) (n : Int) :
    normalizedOfInt cfg n ≠ -1 := by
  have := normalizedOfInt_nonneg cfg n
  intro h
  rw [h] at this
  norm_num at this

lemma noiseReductionThreshold_pos (level : String) :
    0 < noiseReductionThreshold level := by
  unfold noiseReductionThreshold
  split
  · norm_num
  · split <;> norm_num

lemma significantlyDifferent_self (v : ℚ) (level : String) :
    significantlyDifferent v v level = false := by
  simp only [significantlyDifferent, sub_self, abs_zero, decide_eq_false_iff_not,
    not_lt]
  exact (noiseReductionThreshold_pos level).le

lemma emitCond_unset (cfg : DeejConfig) (nv : ℚ) :
    emitCond cfg (-1) nv = true := by
  simp [emitCond]

lemma emitCond_self (cfg : DeejConfig) {v : ℚ} (h : v ≠ -1) :
    emitCond cfg v v = false := by
  simp [emitCond, h, significantlyDifferent_self]

lemma normalizedOfInt_default_512 : normalizedOfInt cfgDefault 512 = 1 / 2 := by
  unfold normalizedOfInt cfgDefault
  norm_num
  rw [normalizeScalar_eval (n := 50) (by norm_num) (by norm_num)
    (round_rat_eq (by norm_num) (by norm_num))]
  norm_num

lemma normalizedOfInt_default_1023 : normalizedOfInt cfgDefault 1023 = 1 := by
  unfold normalizedOfInt cfgDefault
  norm_num
  rw [normalizeScalar_eval (n := 100) (by norm_num) (by norm_num)
    (round_rat_eq (by norm_num) (by norm_num))]
  norm_num

lemma normalizedOfInt_default_0 : normalizedOfInt cfgDefault 0 = 0 := by
  unfold normalizedOfInt cfgDefault
  norm_num
  rw [normalizeScalar_eval (n := 0) (by norm_num) (by norm_num)
    (round_rat_eq (by norm_num) (by norm_num))]
  norm_num

lemma normalizedOfInt_inverted_512 : normalizedOfInt cfgInverted 512 = 1 / 2 := by
  unfold normalizedOfInt cfgInverted
  norm_num
  rw [normalizeScalar_eval (n := 50) (by norm_num) (by norm_num)
    (round_rat_eq (by norm_num) (by norm_num))]
  norm_num

lemma normalizedOfInt_inverted_1023 : normalizedOfInt cfgInverted 1023 = 0 := by
  unfold normalizedOfInt cfgInverted
  norm_num
  rw [normalizeScalar_eval (n := 100) (by norm_num) (by norm_num)
    (round_rat_eq (by norm_num) (by norm_num))]
  norm_num

lemma normalizedOfInt_inverted_0 : normalizedOfInt cfgInverted 0 = 1 := by
  unfold normalizedOfInt cfgInverted
  norm_num
  rw [normalizeScalar_eval (n := 0) (by norm_num) (by norm_num)
    (round_rat_eq (by norm_num) (by norm_num))]
  norm_num

/-! ### Concrete runs of `processSliderData` used by the scenarios. -/

lemma sliderLoop_eval_512_default :
    sliderLoop cfgDefault ["512", "1023", "0"] 0 (List.replicate 3 (-1)) [] =
      some ([1 / 2, 1, 0], [⟨0, 1 / 2⟩, ⟨1, 1⟩, ⟨2, 0⟩]) := by
  have h1 : goAtoi "512" = 512 := by decide
  have h2 : goAtoi "1023" = 1023 := by decide
  have h3 : goAtoi "0" = 0 := by decide
  simp only [sliderLoop, h1, h2, h3, List.replicate, normalizedOfInt_default_512,
    normalizedOfInt_default_1023, normalizedOfInt_default_0, List.getD_cons_zero,
    List.getD_cons_succ, emitCond_unset, List.set]
  norm_num

lemma processSliderData_eval_512_default :
    processSliderData cfgDefault ⟨0, []⟩ "512|1023|0" =
      (⟨3, [1 / 2, 1, 0]⟩, [⟨0, 1 / 2⟩, ⟨1, 1⟩, ⟨2, 0⟩]) := by
  have hsplit : goSplit "512|1023|0" '|' = ["512", "1023", "0"] := by decide
  simp only [processSliderData, hsplit, List.length_cons, List.length_nil,
    resyncSliderState]
  norm_num [sliderLoop_eval_512_default]

lemma sliderLoop_eval_512_inverted :
    sliderLoop cfgInverted ["512", "1023", "0"] 0 (List.replicate 3 (-1)) [] =
      some ([1 / 2, 0, 1], [⟨0, 1 / 2⟩, ⟨1, 0⟩, ⟨2, 1⟩]) := by
  have h1 : goAtoi "512" = 512 := by decide
  have h2 : goAtoi "1023" = 1023 := by decide
  have h3 : goAtoi "0" = 0 := by decide
  simp only [sliderLoop, h1, h2, h3, List.replicate, normalizedOfInt_inverted_512,
    normalizedOfInt_inverted_1023, normalizedOfInt_inverted_0, List.getD_cons_zero,
    List.getD_cons_succ, emitCond_unset, List.set]
  norm_num

lemma processSliderData_eval_512_inverted :
    processSliderData cfgInverted ⟨0, []⟩ "512|1023|0" =
      (⟨3, [1 / 2, 0, 1]⟩, [⟨0, 1 / 2⟩, ⟨1, 0⟩, ⟨2, 1⟩]) := by
  have hsplit : goSplit "512|1023|0" '|' = ["512", "1023", "0"] := by decide
  simp only [processSliderData, hsplit, List.length_cons, List.length_nil,
    resyncSliderState]
  norm_num [sliderLoop_eval_512_inverted]

lemma processSliderData_eval_single_512 :
    processSliderData cfgDefault ⟨0, []⟩ "512" = (⟨1, [1 / 2]⟩, [⟨0, 1 / 2⟩]) := by
  have hsplit : goSplit "512" '|' = ["512"] := by decide
  have h1 : goAtoi "512" = 512 := by decide
  simp only [processSliderData, hsplit, List.length_cons, List.length_nil,
    resyncSliderState]
  norm_num [sliderLoop, h1, normalizedOfInt_default_512, emitCond_unset,
    List.replicate]

/-! ### General characterization of one `processSliderData` step. -/

lemma getD_set_ne_q (l : List ℚ) {i j : Nat} (v d : ℚ) (h : i ≠ j) :
    (l.set i v).getD j d = l.getD j d := by
  simp [List.getD, List.getElem?_set_ne h]

lemma getD_set_self_q (l : List ℚ) {i : Nat} (v d : ℚ) (h : i < l.length) :
    (l.set i v).getD i d = v := by
  simp [List.getD, List.getElem?_set_self, h]

lemma getD_replicate_q {n i : Nat} (a d : ℚ) (h : i < n) :
    (List.replicate n a).getD i d = a := by
  simp [List.getD, List.getElem?_replicate, h]

lemma newEventsFrom_cons (cfg : DeejConfig) (sv : String) (rest : List String)
    (idx : Nat) (cur : List ℚ) :
    newEventsFrom cfg (sv :: rest) idx cur =
      (if emitCond cfg (cur.getD idx 0) (normalizedOf cfg sv) then
        [⟨idx, normalizedOf cfg sv⟩] else []) ++
        newEventsFrom cfg rest (idx + 1) cur := rfl

/-- Writing a slot strictly below the scan index does not change the
reference event list. -/
lemma newEventsFrom_set_lt (cfg : DeejConfig) :
    ∀ (rest : List String) (idx j : Nat) (cur : List ℚ) (v : ℚ), j < idx →
      newEventsFrom cfg rest idx (cur.set j v) = newEventsFrom cfg rest idx cur
  | [], _, _, _, _, _ => rfl
  | sv :: rest, idx, j, cur, v, h => by
    unfold newEventsFrom
    rw [getD_set_ne_q cur v 0 (by omega),
      newEventsFrom_set_lt cfg rest (idx + 1) j cur v (by omega)]

/-- Master lemma: an accepted run of the Go loop returns exactly the
reference event list `newEventsFrom`, and the final slot array is the
pre-loop array overwritten at exactly the emitted indices. -/
lemma sliderLoop_spec (cfg : DeejConfig) :
    ∀ (fields : List String) (idx : Nat) (cur : List ℚ)
      (acc : List SliderMoveEvent),
      idx + fields.length ≤ cur.length →
      (idx = 0 → goAtoi (fields.headD "") ≤ 1023) →
      ∃ cur',
        sliderLoop cfg fields idx cur acc =
          some (cur', acc.reverse ++ newEventsFrom cfg fields idx cur) ∧
        cur'.length = cur.length ∧
        ∀ j, cur'.getD j 0 =
          if idx ≤ j ∧ j < idx + fields.length then
            (if emitCond cfg (cur.getD j 0)
                (normalizedOf cfg (fields.getD (j - idx) "")) then
              normalizedOf cfg (fields.getD (j - idx) "")
            else cur.getD j 0)
          else cur.getD j 0 := by
  intro fields
  induction fields with
  | nil =>
    intro idx cur acc _ _
    refine ⟨cur, by simp [sliderLoop, newEventsFrom], rfl, fun j => ?_⟩
    rw [if_neg (by simp only [List.length_nil]; omega)]
  | cons sv rest ih =>
    intro idx cur acc hlen habort
    have hnoab : ¬(idx = 0 ∧ 1023 < goAtoi sv) := by
      rintro ⟨h0, hgt⟩
      have := habort h0
      simp only [List.headD_cons] at this
      omega
    have hidx : idx < cur.length := by
      simp only [List.length_cons] at hlen
      omega
    have hnab' : ¬(idx + 1 = 0) := by omega
    by_cases hemit :
        emitCond cfg (cur.getD idx 0) (normalizedOfInt cfg (goAtoi sv)) = true
    · set nv := normalizedOfInt cfg (goAtoi sv) with hnvdef
      obtain ⟨cur', heq, hlen', hpt⟩ :=
        ih (idx + 1) (cur.set idx nv) (⟨idx, nv⟩ :: acc)
          (by rw [List.length_set]; simp only [List.length_cons] at hlen; omega)
          (fun h => absurd h hnab')
      refine ⟨cur', ?_, by rwa [List.length_set] at hlen', ?_⟩
      · rw [show sliderLoop cfg (sv :: rest) idx cur acc =
            sliderLoop cfg rest (idx + 1) (cur.set idx nv) (⟨idx, nv⟩ :: acc) by
          simp only [sliderLoop]
          rw [if_neg hnoab, if_pos hemit]]
        rw [heq, List.reverse_cons, List.append_assoc,
          newEventsFrom_set_lt cfg rest (idx + 1) idx cur nv (by omega),
          newEventsFrom_cons cfg sv rest idx cur,
          show normalizedOf cfg sv = nv from rfl, if_pos hemit]
      · intro j
        rcases Nat.lt_trichotomy j idx with hj | hj | hj
        · have := hpt j
          rw [if_neg (by omega)] at this
          rw [this, if_neg (by omega), getD_set_ne_q cur nv 0 (by omega)]
        · subst hj
        -- the slot written this iteration; later iterations leave it alone
          have := hpt j
          rw [if_neg (by omega)] at this
          rw [this, getD_set_self_q cur nv 0 hidx,
            if_pos (by simp only [List.length_cons]; omega)]
          simp only [Nat.sub_self, List.getD_cons_zero]
          rw [show normalizedOf cfg sv = nv from rfl, if_pos hemit]
        · by_cases hj2 : j < idx + (sv :: rest).length
          · have := hpt j
            rw [if_pos (by simp only [List.length_cons] at hj2 ⊢; omega)] at this
            rw [this, if_pos (And.intro (le_of_lt hj) hj2)]
            have harg : j - (idx + 1) + 1 = j - idx := by omega
            rw [getD_set_ne_q cur nv 0 (by omega),
              show (sv :: rest).getD (j - idx) "" = rest.getD (j - (idx + 1)) "" by
                rw [← harg, List.getD_cons_succ]]
          · have := hpt j
            rw [if_neg (by simp only [List.length_cons] at hj2 ⊢; omega)] at this
            rw [this, if_neg (fun hcon => hj2 hcon.2), getD_set_ne_q cur nv 0 (by omega)]
    · have hfalse :
          emitCond cfg (cur.getD idx 0) (normalizedOfInt cfg (goAtoi sv)) = false :=
        Bool.eq_false_iff.mpr hemit
      obtain ⟨cur', heq, hlen', hpt⟩ :=
        ih (idx + 1) cur acc
          (by simp only [List.length_cons] at hlen; omega)
          (fun h => absurd h hnab')
      refine ⟨cur', ?_, hlen', ?_⟩
      · rw [show sliderLoop cfg (sv :: rest) idx cur acc =
            sliderLoop cfg rest (idx + 1) cur acc by
          simp only [sliderLoop]
          rw [if_neg hnoab, if_neg (by rw [hfalse]; simp)]]
        rw [heq, newEventsFrom_cons cfg sv rest idx cur,
          show normalizedOf cfg sv = normalizedOfInt cfg (goAtoi sv) from rfl,
          hfalse]
        simp
      · intro j
        rcases Nat.lt_trichotomy j idx with hj | hj | hj
        · have := hpt j
          rw [if_neg (by omega)] at this
          rw [this, if_neg (by omega)]
        · subst hj
          have := hpt j
          rw [if_neg (by omega)] at this
          rw [this, if_pos (by simp only [List.length_cons]; omega)]
          simp only [Nat.sub_self, List.getD_cons_zero]
          rw [show normalizedOf cfg sv = normalizedOfInt cfg (goAtoi sv) from rfl,
            hfalse]
          simp
        · by_cases hj2 : j < idx + (sv :: rest).length
          · have := hpt j
            rw [if_pos (by simp only [List.length_cons] at hj2 ⊢; omega)] at this
            rw [this, if_pos (And.intro (le_of_lt hj) hj2)]
            have harg : j - (idx + 1) + 1 = j - idx := by omega
            rw [show (sv :: rest).getD (j - idx) "" = rest.getD (j - (idx + 1)) "" by
              rw [← harg, List.getD_cons_succ]]
          · have := hpt j
            rw [if_neg (by simp only [List.length_cons] at hj2 ⊢; omega)] at this
            rw [this, if_neg (fun hcon => hj2 hcon.2)]

/-- The early return of serial.go 527-530: a first field above 1023 aborts
the whole frame. -/
lemma sliderLoop_abort (cfg : DeejConfig) (sv : String) (rest : List String)
    (cur : List ℚ) (acc : List SliderMoveEvent) (h : 1023 < goAtoi sv) :
    sliderLoop cfg (sv :: rest) 0 cur acc = none := by
  simp [sliderLoop, h]

lemma resyncSliderState_lastKnown (st : SerialState) (M : Nat) :
    (resyncSliderState st M).lastKnownNumSliders = M := by
  unfold resyncSliderState
  split
  · rfl
  · omega

lemma resyncSliderState_length (st : SerialState) (M : Nat)
    (hwf : st.currentSliderPercentValues.length = st.lastKnownNumSliders) :
    (resyncSliderState st M).currentSliderPercentValues.length = M := by
  unfold resyncSliderState
  split
  · simp
  · omega

lemma resyncSliderState_of_ne (st : SerialState) (M : Nat)
    (h : M ≠ st.lastKnownNumSliders) :
    resyncSliderState st M = ⟨M, List.replicate M (-1)⟩ := by
  unfold resyncSliderState
  rw [if_pos h]

lemma resyncSliderState_of_eq (st : SerialState) (M : Nat)
    (h : M = st.lastKnownNumSliders) : resyncSliderState st M = st := by
  unfold resyncSliderState
  rw [if_neg (by omega)]

/-- Characterization of an accepted `processSliderData` step: the new
count is the field count, the emitted events are the reference list, and
the slot array is updated pointwise at exactly the emitted indices. -/
lemma processSliderData_spec (cfg : DeejConfig) (st : SerialState) (p : String)
    (hbase : (resyncSliderState st
      (goSplit p '|').length).currentSliderPercentValues.length =
      (goSplit p '|').length)
    (hfirst : goAtoi ((goSplit p '|').headD "") ≤ 1023) :
    (processSliderData cfg st p).1.lastKnownNumSliders = (goSplit p '|').length ∧
    (processSliderData cfg st p).2 =
      newEventsFrom cfg (goSplit p '|') 0
        (resyncSliderState st (goSplit p '|').length).currentSliderPercentValues ∧
    (processSliderData cfg st p).1.currentSliderPercentValues.length =
      (goSplit p '|').length ∧
    ∀ j, (processSliderData cfg st p).1.currentSliderPercentValues.getD j 0 =
      if j < (goSplit p '|').length then
        (if emitCond cfg
            ((resyncSliderState st
              (goSplit p '|').length).currentSliderPercentValues.getD j 0)
            (normalizedOf cfg ((goSplit p '|').getD j "")) then
          normalizedOf cfg ((goSplit p '|').getD j "")
        else (resyncSliderState st
          (goSplit p '|').length).currentSliderPercentValues.getD j 0)
      else (resyncSliderState st
        (goSplit p '|').length).currentSliderPercentValues.getD j 0 := by
  obtain ⟨cur', heq, hlen, hpt⟩ :=
    sliderLoop_spec cfg (goSplit p '|') 0
      (resyncSliderState st (goSplit p '|').length).currentSliderPercentValues []
      (by rw [hbase]; omega) (fun _ => hfirst)
  have hres : processSliderData cfg st p =
      (⟨(resyncSliderState st (goSplit p '|').length).lastKnownNumSliders, cur'⟩,
        newEventsFrom cfg (goSplit p '|') 0
          (resyncSliderState st (goSplit p '|').length).currentSliderPercentValues) := by
    simp only [processSliderData]
    rw [heq]
    simp
  rw [hres]
  refine ⟨resyncSliderState_lastKnown st _, rfl, by rw [hlen, hbase],
    fun j => ?_⟩
  have := hpt j
  simpa using this

/-- Characterization of a discarded (malformed-first-field) step: the
resync still happened, nothing is emitted. -/
lemma processSliderData_abort (cfg : DeejConfig) (st : SerialState) (p : String)
    (f : String) (rest : List String) (hsplit : goSplit p '|' = f :: rest)
    (h : 1023 < goAtoi f) :
    processSliderData cfg st p =
      (resyncSliderState st (f :: rest).length, []) := by
  simp only [processSliderData]
  rw [hsplit, sliderLoop_abort cfg f rest _ _ h]

/-- On an all-unset slot array every index emits, in ascending order. -/
lemma newEventsFrom_allUnset (cfg : DeejConfig) :
    ∀ (fields : List String) (idx : Nat) (cur : List ℚ),
      (∀ j, idx ≤ j → j < idx + fields.length → cur.getD j 0 = -1) →
      (newEventsFrom cfg fields idx cur).map (·.sliderID) =
        List.range' idx fields.length
  | [], _, _, _ => rfl
  | sv :: rest, idx, cur, hunset => by
    rw [newEventsFrom_cons cfg sv rest idx cur]
    have hcond : emitCond cfg (cur.getD idx 0) (normalizedOf cfg sv) = true := by
      rw [hunset idx (by omega) (by simp only [List.length_cons]; omega)]
      exact emitCond_unset cfg _
    rw [if_pos hcond]
    simp only [List.singleton_append, List.map_cons, List.length_cons]
    rw [newEventsFrom_allUnset cfg rest (idx + 1) cur
      (fun j h1 h2 => hunset j (by omega)
        (by simp only [List.length_cons]; omega))]
    rfl

/-- Every reference event records an in-range index, the normalized value
of its own field, and a true emission condition at that index. -/
lemma mem_newEventsFrom (cfg : DeejConfig) :
    ∀ (fields : List String) (idx : Nat) (cur : List ℚ) (e : SliderMoveEvent),
      e ∈ newEventsFrom cfg fields idx cur →
      idx ≤ e.sliderID ∧ e.sliderID < idx + fields.length ∧
      e.percentValue = normalizedOf cfg (fields.getD (e.sliderID - idx) "") ∧
      emitCond cfg (cur.getD e.sliderID 0) e.percentValue = true
  | [], _, _, _, h => by simp [newEventsFrom] at h
  | sv :: rest, idx, cur, e, h => by
    unfold newEventsFrom at h
    rcases List.mem_append.mp h with h1 | h2
    · by_cases hc : emitCond cfg (cur.getD idx 0) (normalizedOf cfg sv) = true
      · rw [if_pos hc] at h1
        simp only [List.mem_singleton] at h1
        subst h1
        exact ⟨le_refl _, by simp, by simp, by simpa using hc⟩
      · rw [Bool.eq_false_iff.mpr hc] at h1
        simp at h1
    · obtain ⟨ha, hb, hc, hd⟩ := mem_newEventsFrom cfg rest (idx + 1) cur e h2
      refine ⟨by omega, by simp only [List.length_cons]; omega, ?_, hd⟩
      have harg : e.sliderID - (idx + 1) + 1 = e.sliderID - idx := by omega
      rw [hc, show (sv :: rest).getD (e.sliderID - idx) "" =
        rest.getD (e.sliderID - (idx + 1)) "" by rw [← harg, List.getD_cons_succ]]

/-- Every event an accepted or aborted run produces carries a value of the
form `normalizedOfInt`; by construction those lie in `[0, 1]`. -/
lemma sliderLoop_values (cfg : DeejConfig) :
    ∀ (fields : List String) (idx : Nat) (cur : List ℚ)
      (acc : List SliderMoveEvent) (cur' : List ℚ) (evs : List SliderMoveEvent),
      sliderLoop cfg fields idx cur acc = some (cur', evs) →
      (∀ e ∈ acc, 0 ≤ e.percentValue ∧ e.percentValue ≤ 1) →
      ∀ e ∈ evs, 0 ≤ e.percentValue ∧ e.percentValue ≤ 1
  | [], idx, cur, acc, cur', evs, heq, hacc => by
    simp only [sliderLoop, Option.some_inj, Prod.mk.injEq] at heq
    intro e he
    exact hacc e (by rw [← List.mem_reverse, heq.2]; exact he)
  | sv :: rest, idx, cur, acc, cur', evs, heq, hacc => by
    simp only [sliderLoop] at heq
    split at heq
    · exact absurd heq (by simp)
    · split at heq
      · exact sliderLoop_values cfg rest (idx + 1) _ _ _ _ heq
          (fun e he => by
            rcases List.mem_cons.mp he with h | h
            · subst h
              exact ⟨normalizedOfInt_nonneg cfg _, normalizedOfInt_le_one cfg _⟩
            · exact hacc e h)
      · exact sliderLoop_values cfg rest (idx + 1) _ _ _ _ heq hacc

lemma processSliderData_eval_512_repeat :
    processSliderData cfgDefault ⟨3, [1 / 2, 1, 0]⟩ "512|1023|0" =
      (⟨3, [1 / 2, 1, 0]⟩, []) := by
  have hsplit : goSplit "512|1023|0" '|' = ["512", "1023", "0"] := by decide
  have h1 : goAtoi "512" = 512 := by decide
  have h2 : goAtoi "1023" = 1023 := by decide
  have h3 : goAtoi "0" = 0 := by decide
  have e1 : emitCond cfgDefault (1 / 2) (1 / 2) = false :=
    emitCond_self _ (by norm_num)
  have e2 : emitCond cfgDefault 1 1 = false := emitCond_self _ (by norm_num)
  have e3 : emitCond cfgDefault 0 0 = false := emitCond_self _ (by norm_num)
  simp only [processSliderData, hsplit, List.length_cons, List.length_nil,
    resyncSliderState]
  norm_num [sliderLoop, h1, h2, h3, normalizedOfInt_default_512,
    normalizedOfInt_default_1023, normalizedOfInt_default_0, e1, e2, e3]

/-! ### The legacy bare-line branch of `handleLine` is unreachable. -/

lemma dropWhile_head?_not (p : Char → Bool) :
    ∀ (l : List Char) (c : Char), (l.dropWhile p).head? = some c → p c = false
  | [], c, h => by simp [List.dropWhile] at h
  | x :: xs, c, h => by
    rw [List.dropWhile_cons] at h
    split at h
    · exact dropWhile_head?_not p xs c h
    · simp only [List.head?_cons, Option.some_inj] at h
      subst h
      rename_i hx
      exact Bool.eq_false_iff.mpr hx

/-- The last character of a trimmed line is never whitespace. -/
lemma goTrimSpace_getLast? (s : String) (c : Char)
    (h : (goTrimSpace s).data.getLast? = some c) : isGoSpace c = false := by
  unfold goTrimSpace at h
  rw [show (String.mk
      (((s.data.dropWhile isGoSpace).reverse.dropWhile isGoSpace).reverse)).data =
      ((s.data.dropWhile isGoSpace).reverse.dropWhile isGoSpace).reverse from rfl,
    List.getLast?_reverse] at h
  exact dropWhile_head?_not _ _ _ h

/-- `expectedLinePattern` still demands a trailing CRLF, so it can never
match a line that `strings.TrimSpace` has already processed. -/
lemma matchesExpectedLinePattern_trimSpace (s : String) :
    matchesExpectedLinePattern (goTrimSpace s) = false := by
  rcases h : (goTrimSpace s).data.getLast? with _ | c
  · simp [matchesExpectedLinePattern, h]
  · have hc : ¬c = '\n' := by
      intro hc
      subst hc
      have := goTrimSpace_getLast? s '\n' h
      simp [isGoSpace] at this
    simp [matchesExpectedLinePattern, h, hc]

lemma handleLineOldFormat_not_legacy (s : String) :
    isLegacyForward (handleLineOldFormat (goTrimSpace s)) = false := by
  unfold handleLineOldFormat
  split
  · rfl
  · rw [if_neg (by rw [matchesExpectedLinePattern_trimSpace s]; simp)]
    rfl

/-- No serial line whatsoever reaches the legacy slider-data forward:
the branch at serial.go line 491-493 is dead code. -/
lemma handleLine_never_legacy (line : String) :
    isLegacyForward (handleLine line) = false := by
  simp only [handleLine]
  split
  · split
    · rfl
    · split
      · rfl
      · split
        · split <;> rfl
        · split
          · split <;> rfl
          · exact handleLineOldFormat_not_legacy line
  · exact handleLineOldFormat_not_legacy line

/-- `strings.Split` never returns an empty slice. -/
lemma splitOnChar_ne_nil (sep : Char) : ∀ cs, splitOnChar sep cs ≠ []
  | [] => by simp [splitOnChar]
  | c :: rest => by
    unfold splitOnChar
    rcases h : splitOnChar sep rest with _ | ⟨g, gs⟩
    · simp
    · dsimp only
      split <;> simp

lemma goSplit_ne_nil (s : String) (sep : Char) : goSplit s sep ≠ [] := by
  unfold goSplit
  intro h
  exact splitOnChar_ne_nil sep s.data (List.map_eq_nil_iff.mp h)

/-! ### Session map lemmas. -/

lemma list_any_congr {α : Type} (f g : α → Bool) (l : List α)
    (h : ∀ a ∈ l, f a = g a) : l.any f = l.any g := by
  induction l with
  | nil => rfl
  | cons x xs ih =>
    simp only [List.any_cons, h x (by simp)]
    rw [ih (fun a ha => h a (by simp [ha]))]

lemma list_contains_three (k a b c : String) :
    [a, b, c].contains k = (k == a || k == b || k == c) := by
  rcases h1 : k == a <;> rcases h2 : k == b <;> rcases h3 : k == c <;>
    simp [List.contains, List.elem, h1, h2, h3]

/-- A target whose lower-cased form has no `deej.` prefix resolves to the
single lower-cased literal key. -/
lemma resolveTarget_nonspecial (cw : List String) (st : SessionMapState)
    (target : String) (h : targetHasSpecialTransform (goToLower target) = false) :
    resolveTarget cw st target = [goToLower target] := by
  unfold resolveTarget
  rw [if_neg (by rw [h]; simp)]

/-- Under the well-formedness hypothesis on the configured targets,
`sessionMapped` neither reads the session-map state nor the current-window
names, and agrees with the claim-side predicate `specSessionMapped`. -/
lemma sessionMapped_eq_spec (cfg : List (Nat × List String))
    (cw : List String) (st : SessionMapState) (s : Session)
    (hts : ∀ p ∈ cfg, ∀ t ∈ p.2, targetHasSpecialTransform t = false →
      targetHasSpecialTransform (goToLower t) = false) :
    sessionMapped cfg cw st s = specSessionMapped cfg s.key := by
  unfold sessionMapped specSessionMapped
  rw [list_contains_three]
  congr 1
  apply list_any_congr
  intro p hp
  apply list_any_congr
  intro t ht
  rcases hsp : targetHasSpecialTransform t with _ | _
  · rw [resolveTarget_nonspecial cw st t (hts p hp t ht hsp)]
    simp
  · simp

/-- Under the same hypothesis, the unmapped snapshot built by the
enumeration loop is exactly the enumerated sessions filtered by the
claim-side predicate, in enumeration order. -/
lemma foldl_addSessionStep_unmapped (cfg : List (Nat × List String))
    (cw : List String)
    (hts : ∀ p ∈ cfg, ∀ t ∈ p.2, targetHasSpecialTransform t = false →
      targetHasSpecialTransform (goToLower t) = false) :
    ∀ (sessions : List Session) (acc : SessionMapState),
      (sessions.foldl (addSessionStep cfg cw) acc).unmappedSessions =
        acc.unmappedSessions ++
          sessions.filter (fun s => !specSessionMapped cfg s.key)
  | [], acc => by simp
  | s :: rest, acc => by
    rw [List.foldl_cons, foldl_addSessionStep_unmapped cfg cw hts rest _]
    unfold addSessionStep
    rcases hm : specSessionMapped cfg s.key with _ | _
    · rw [if_neg (by rw [sessionMapped_eq_spec cfg cw _ s hts, hm]; simp)]
      simp [List.filter_cons, hm]
    · rw [if_pos (by rw [sessionMapped_eq_spec cfg cw _ s hts]; exact hm)]
      simp [List.filter_cons, hm]

lemma getAndAddSessions_unmapped (cfg : List (Nat × List String))
    (cw : List String) (st : SessionMapState) (now : ℚ)
    (sessions : List Session)
    (hts : ∀ p ∈ cfg, ∀ t ∈ p.2, targetHasSpecialTransform t = false →
      targetHasSpecialTransform (goToLower t) = false) :
    (getAndAddSessions cfg cw st now sessions).unmappedSessions =
      sessions.filter (fun s => !specSessionMapped cfg s.key) := by
  unfold getAndAddSessions
  rw [foldl_addSessionStep_unmapped cfg cw hts sessions _]
  simp

/-- `resolveTarget` on the literal `deej.unmapped` returns the keys of the
current unmapped snapshot. -/
lemma resolveTarget_deej_unmapped (cw : List String) (st : SessionMapState) :
    resolveTarget cw st "deej.unmapped" = st.unmappedSessions.map (·.key) := by
  have h1 : goToLower "deej.unmapped" = "deej.unmapped" := by decide
  have h2 : targetHasSpecialTransform "deej.unmapped" = true := by decide
  have h3 : goTrimPrefix "deej.unmapped" specialTargetTransformPrefix =
      "unmapped" := by decide
  unfold resolveTarget
  rw [h1, if_pos h2, h3]
  unfold applyTargetTransform
  rw [if_neg (by decide), if_pos (by decide)]

/-! ## Claim theorems -/

/-- C1: the claim says every line whose CR/LF-trimmed form matches the
legacy bare pattern is forwarded to the slider-data path and yields the
same events as the equivalent framed `sliders` payload.  The code cannot
do this: `handleLine` trims the line before testing `expectedLinePattern`,
which still demands a literal trailing CRLF.  At the failing input
`"512|1023|0\r\n"` the claim's premise holds (first conjunct) and the
framed equivalent yields 3 events (third and fourth conjuncts), yet the
bare line is silently ignored (second conjunct); the last conjunct proves
the legacy forward unreachable for every line. -/
theorem claim_C1_legacy_bare_line_not_forwarded :
    matchesBareSliderPattern (goTrimSpace "512|1023|0\r\n") = true ∧
    handleLine "512|1023|0\r\n" = .ignored ∧
    handleLine "deej:v2.0:sliders:512|1023|0" = .slidersMsg "512|1023|0" ∧
    (processSliderData cfgDefault ⟨0, []⟩ "512|1023|0").2.length = 3 ∧
    ∀ line : String, isLegacyForward (handleLine line) = false := by
  refine ⟨by decide, by decide, by decide, ?_, handleLine_never_legacy⟩
  rw [processSliderData_eval_512_default]
  rfl

/-- C2: every slider-move event produced by the slider-data path carries a
`percentValue` inside `[0, 1]`, for every configuration, every reachable
tracker state (slot array sized to the known count) and every payload,
including payloads with non-numeric or out-of-range later fields. -/
theorem claim_C2_percent_value_in_unit_interval (cfg : DeejConfig)
    (st : SerialState) (payload : String)
    (hwf : st.currentSliderPercentValues.length = st.lastKnownNumSliders)
    (e : SliderMoveEvent) (he : e ∈ (processSliderData cfg st payload).2) :
    0 ≤ e.percentValue ∧ e.percentValue ≤ 1 := by
  simp only [processSliderData] at he
  rcases hloop : sliderLoop cfg (goSplit payload '|') 0
      (resyncSliderState st
        (goSplit payload '|').length).currentSliderPercentValues [] with
    _ | ⟨cur, evs⟩
  · rw [hloop] at he
    simp at he
  · rw [hloop] at he
    simp only at he
    exact sliderLoop_values cfg _ _ _ _ _ _ hloop (by simp) e he

/-- Witness for C2 at the concrete run `"512"` from the initial state:
the single emitted event `⟨0, 1/2⟩` is inside the unit interval. -/
theorem claim_C2_witness :
    0 ≤ (⟨0, 1 / 2⟩ : SliderMoveEvent).percentValue ∧
      (⟨0, 1 / 2⟩ : SliderMoveEvent).percentValue ≤ 1 :=
  claim_C2_percent_value_in_unit_interval cfgDefault ⟨0, []⟩ "512" rfl
    ⟨0, 1 / 2⟩
    (by rw [processSliderData_eval_single_512]; exact List.mem_singleton.mpr rfl)

/-- C3: a frame whose field count differs from the tracker's known count
resets every slot to the `-1` sentinel and then emits exactly one event per
index (ascending), whatever the noise-reduction level and whatever values
the slots held before. -/
theorem claim_C3_resync_emits_every_index (cfg : DeejConfig)
    (st : SerialState) (payload : String)
    (hne : (goSplit payload '|').length ≠ st.lastKnownNumSliders)
    (hfirst : goAtoi ((goSplit payload '|').headD "") ≤ 1023) :
    resyncSliderState st (goSplit payload '|').length =
      ⟨(goSplit payload '|').length,
        List.replicate (goSplit payload '|').length (-1)⟩ ∧
    (processSliderData cfg st payload).2.map (·.sliderID) =
      List.range (goSplit payload '|').length := by
  have hres := resyncSliderState_of_ne st (goSplit payload '|').length hne
  refine ⟨hres, ?_⟩
  obtain ⟨_, hev, _, _⟩ := processSliderData_spec cfg st payload
    (by rw [hres]; simp) hfirst
  rw [hev, hres]
  rw [newEventsFrom_allUnset cfg (goSplit payload '|') 0
    (List.replicate (goSplit payload '|').length (-1))
    (fun j h1 h2 => getD_replicate_q (-1) 0 (by omega))]
  rw [List.range_eq_range']

/-- Witness for C3: the first frame `"512|1023|0"` from the initial state
(count 0 → 3) resets three slots and emits for indices 0, 1, 2. -/
theorem claim_C3_witness :
    resyncSliderState ⟨0, []⟩ (goSplit "512|1023|0" '|').length =
      ⟨(goSplit "512|1023|0" '|').length,
        List.replicate (goSplit "512|1023|0" '|').length (-1)⟩ ∧
    (processSliderData cfgDefault ⟨0, []⟩ "512|1023|0").2.map (·.sliderID) =
      List.range (goSplit "512|1023|0" '|').length :=
  claim_C3_resync_emits_every_index cfgDefault ⟨0, []⟩ "512|1023|0"
    (by decide) (by decide)

/-- C4: the first frame `"512|1023|0"` (all slots unset, default noise
level) emits exactly the three events index 0 ↦ ≈0.50, index 1 ↦ 1.00,
index 2 ↦ 0.00; with inverted sliders the complements ≈0.50, 0.00, 1.00. -/
theorem claim_C4_first_frame_scenario :
    ∃ v0 w0 : ℚ,
      (processSliderData cfgDefault ⟨0, []⟩ "512|1023|0").2 =
        [⟨0, v0⟩, ⟨1, 1⟩, ⟨2, 0⟩] ∧ |v0 - 1 / 2| ≤ 1 / 100 ∧
      (processSliderData cfgInverted ⟨0, []⟩ "512|1023|0").2 =
        [⟨0, w0⟩, ⟨1, 0⟩, ⟨2, 1⟩] ∧ |w0 - 1 / 2| ≤ 1 / 100 := by
  refine ⟨1 / 2, 1 / 2, ?_, by norm_num, ?_, by norm_num⟩
  · rw [processSliderData_eval_512_default]
  · rw [processSliderData_eval_512_inverted]

/-- C5: a payload whose first field parses above 1023 is discarded whole:
no event is produced, so nothing can reach any subscriber. -/
theorem claim_C5_malformed_first_field_discards_frame (cfg : DeejConfig)
    (st : SerialState) (payload : String) (f : String) (rest : List String)
    (hsplit : goSplit payload '|' = f :: rest) (hbig : 1023 < goAtoi f) :
    (processSliderData cfg st payload).2 = [] := by
  rw [processSliderData_abort cfg st payload f rest hsplit hbig]

/-- Witness for C5 at the spec's own example `"4558|925|41"`. -/
theorem claim_C5_witness :
    (processSliderData cfgDefault ⟨0, []⟩ "4558|925|41").2 = [] :=
  claim_C5_malformed_first_field_discards_frame cfgDefault ⟨0, []⟩
    "4558|925|41" "4558" ["925", "41"] (by decide) (by decide)

/-- C6: a non-forced refresh issued less than five seconds after the last
refresh returns immediately: the session table, the unmapped snapshot and
the last-refresh timestamp are all unchanged, no session is released, and
the backend is never consulted (the result does not depend on
`backendSessions`). -/
theorem claim_C6_refresh_rate_limited (cfg : List (Nat × List String))
    (cw : List String) (st : SessionMapState) (now : ℚ)
    (backendSessions : List Session)
    (hrecent : now < st.lastSessionRefresh + minTimeBetweenSessionRefreshes) :
    refreshSessions cfg cw st false now backendSessions = (st, []) := by
  unfold refreshSessions
  rw [if_pos (And.intro (by trivial) hrecent)]

/-- Witness for C6: a refresh 2 seconds after the last one (at time 0) is
a no-op. -/
theorem claim_C6_witness :
    refreshSessions [] [] ⟨[("chrome.exe", [⟨"chrome.exe"⟩])], 0, []⟩ false 2
        [⟨"spotify.exe"⟩] =
      (⟨[("chrome.exe", [⟨"chrome.exe"⟩])], 0, []⟩, []) :=
  claim_C6_refresh_rate_limited [] [] _ 2 _
    (by norm_num [minTimeBetweenSessionRefreshes])

/-- C7: after a refresh, resolving `deej.unmapped` returns exactly the
keys of the sessions that are unmapped per the claim's characterization:
not master/system/mic, not device-pattern shaped, and equal (as the
resolver lower-cases targets) to no configured non-special target.  The
hypothesis excludes configurations with a target that only gains the
`deej.` prefix through lower-casing, on which the Go code would panic
(see `sessionMapped`). -/
theorem claim_C7_unmapped_target_resolution (cfg : List (Nat × List String))
    (cw : List String) (st0 : SessionMapState) (now : ℚ)
    (sessions : List Session)
    (hts : ∀ p ∈ cfg, ∀ t ∈ p.2, targetHasSpecialTransform t = false →
      targetHasSpecialTransform (goToLower t) = false) :
    resolveTarget cw (getAndAddSessions cfg cw st0 now sessions)
        "deej.unmapped" =
      (sessions.filter (fun s => !specSessionMapped cfg s.key)).map (·.key) := by
  rw [resolveTarget_deej_unmapped,
    getAndAddSessions_unmapped cfg cw st0 now sessions hts]

/-- Witness for C7, the claim's own scenario: sessions
`{chrome.exe, spotify.exe}` with only `chrome.exe` configured resolve
`deej.unmapped` to `["spotify.exe"]`. -/
theorem claim_C7_witness :
    resolveTarget [] (getAndAddSessions [(0, ["chrome.exe"])] [] ⟨[], 0, []⟩ 0
        [⟨"chrome.exe"⟩, ⟨"spotify.exe"⟩]) "deej.unmapped" =
      ["spotify.exe"] := by
  rw [claim_C7_unmapped_target_resolution [(0, ["chrome.exe"])] [] ⟨[], 0, []⟩ 0
    [⟨"chrome.exe"⟩, ⟨"spotify.exe"⟩] (by decide)]
  decide

/-- C8: `handleSliderMoveEvent` returns no error; the set of `SetVolume`
calls it dispatches does not depend on which calls fail (first conjunct);
every session under every resolved target receives its call (second
conjunct); and the only reaction to failures is one delayed (100 ms)
forced refresh per failing call, with no synchronous retry (third
conjunct: the dispatched calls stay exactly one per matching session). -/
theorem claim_C8_setvolume_failure_isolated (cfg : List (Nat × List String))
    (cw : List String) (st : SessionMapState)
    (failing failing' : VolumeSetCall → Bool) (event : SliderMoveEvent)
    (targets : List String) (hlk : cfg.lookup event.sliderID = some targets) :
    (handleSliderMoveEvent cfg cw st failing event).1 =
      (handleSliderMoveEvent cfg cw st failing' event).1 ∧
    (∀ target ∈ targets, ∀ rt ∈ resolveTarget cw st target,
      ∀ s ∈ (st.m.lookup rt).getD [],
        (⟨rt, s, event.percentValue⟩ : VolumeSetCall) ∈
          (handleSliderMoveEvent cfg cw st failing event).1) ∧
    (handleSliderMoveEvent cfg cw st failing event).2 =
      ((handleSliderMoveEvent cfg cw st failing event).1.filter failing).map
        (fun _ => (⟨100, true⟩ : ScheduledRefresh)) := by
  simp only [handleSliderMoveEvent, hlk]
  refine ⟨by trivial, ?_, by trivial⟩
  intro target ht rt hrt s hs
  exact List.mem_flatMap.mpr ⟨target, ht,
    List.mem_flatMap.mpr ⟨rt, hrt, List.mem_map.mpr ⟨s, hs, rfl⟩⟩⟩

/-- Witness for C8: with `chrome.exe` mapped on slider 0 and present in
the session map, its `SetVolume` call is dispatched even when every call
fails. -/
theorem claim_C8_witness :
    (⟨"chrome.exe", ⟨"chrome.exe"⟩, 1 / 2⟩ : VolumeSetCall) ∈
      (handleSliderMoveEvent [(0, ["chrome.exe"])] []
        ⟨[("chrome.exe", [⟨"chrome.exe"⟩])], 0, []⟩ (fun _ => true)
        ⟨0, 1 / 2⟩).1 :=
  (claim_C8_setvolume_failure_isolated [(0, ["chrome.exe"])] []
      ⟨[("chrome.exe", [⟨"chrome.exe"⟩])], 0, []⟩ (fun _ => true)
      (fun _ => false) ⟨0, 1 / 2⟩ ["chrome.exe"] (by decide)).2.1
    "chrome.exe" (by decide) "chrome.exe" (by decide) ⟨"chrome.exe"⟩ (by decide)

/-- C9: once a frame has emitted value `v` for index `i` (so the slot
holds `v`), any later frame with the same reading count and the same raw
reading for `i` — with no count change in between — emits nothing for `i`,
whatever the noise-reduction level. -/
theorem claim_C9_identical_reading_emits_nothing (cfg : DeejConfig)
    (st0 : SerialState) (p1 p2 : String) (i : Nat) (st1 : SerialState)
    (evs1 : List SliderMoveEvent) (e1 : SliderMoveEvent)
    (hwf : st0.currentSliderPercentValues.length = st0.lastKnownNumSliders)
    (hrun1 : processSliderData cfg st0 p1 = (st1, evs1))
    (he1 : e1 ∈ evs1) (hid : e1.sliderID = i)
    (hcount : (goSplit p2 '|').length = (goSplit p1 '|').length)
    (hsame : goAtoi ((goSplit p2 '|').getD i "") =
      goAtoi ((goSplit p1 '|').getD i ""))
    (hfirst2 : goAtoi ((goSplit p2 '|').headD "") ≤ 1023) :
    (processSliderData cfg st1 p2).2.all (fun e2 => e2.sliderID != i) = true := by
  have hst1 : st1 = (processSliderData cfg st0 p1).1 := by rw [hrun1]
  have hevs1 : evs1 = (processSliderData cfg st0 p1).2 := by rw [hrun1]
  subst hst1
  subst hevs1
  obtain ⟨f1, rest1, hsplit1⟩ : ∃ f rest, goSplit p1 '|' = f :: rest := by
    rcases h : goSplit p1 '|' with _ | ⟨f, rest⟩
    · exact absurd h (goSplit_ne_nil p1 '|')
    · exact ⟨f, rest, rfl⟩
  by_cases habort : 1023 < goAtoi f1
  · have habs := processSliderData_abort cfg st0 p1 f1 rest1 hsplit1 habort
    rw [congrArg Prod.snd habs] at he1
    simp at he1
  · push_neg at habort
    have hfirst1 : goAtoi ((goSplit p1 '|').headD "") ≤ 1023 := by
      rw [hsplit1]
      simpa using habort
    obtain ⟨hlk1, hev1, hln1, hpt1⟩ := processSliderData_spec cfg st0 p1
      (resyncSliderState_length st0 _ hwf) hfirst1
    rw [hev1] at he1
    obtain ⟨hge, hlt, hpv, hcond⟩ := mem_newEventsFrom cfg _ 0 _ e1 he1
    rw [hid] at hlt hpv hcond
    simp only [Nat.sub_zero] at hpv
    rw [hpv] at hcond
    have hslot := hpt1 i
    rw [if_pos (by omega), if_pos hcond] at hslot
    have hres2 : resyncSliderState ((processSliderData cfg st0 p1).1)
        (goSplit p2 '|').length = (processSliderData cfg st0 p1).1 :=
      resyncSliderState_of_eq _ _ (by rw [hcount]; exact hlk1.symm)
    obtain ⟨_, hev2, _, _⟩ := processSliderData_spec cfg _ p2
      (by rw [hres2, hln1, hcount]) hfirst2
    rw [hev2, hres2, List.all_eq_true]
    intro e2 he2
    obtain ⟨_, _, hpv2, hcond2⟩ := mem_newEventsFrom cfg _ 0 _ e2 he2
    by_contra hne
    have hei : e2.sliderID = i := by simpa using hne
    rw [hei] at hpv2 hcond2
    simp only [Nat.sub_zero] at hpv2
    have hveq : normalizedOf cfg ((goSplit p2 '|').getD i "") =
        normalizedOf cfg ((goSplit p1 '|').getD i "") := by
      unfold normalizedOf
      rw [hsame]
    rw [hpv2, hveq, hslot] at hcond2
    have hfalse : emitCond cfg (normalizedOf cfg ((goSplit p1 '|').getD i ""))
        (normalizedOf cfg ((goSplit p1 '|').getD i "")) = false :=
      emitCond_self cfg (normalizedOfInt_ne_sentinel cfg _)
    rw [hcond2] at hfalse
    exact Bool.noConfusion hfalse

/-- Witness for C9: re-delivering `"512|1023|0"` right after the first
frame set the slots to `[1/2, 1, 0]` emits nothing for index 1. -/
theorem claim_C9_witness :
    (processSliderData cfgDefault ⟨3, [1 / 2, 1, 0]⟩ "512|1023|0").2.all
      (fun e2 => e2.sliderID != 1) = true :=
  claim_C9_identical_reading_emits_nothing cfgDefault ⟨0, []⟩ "512|1023|0"
    "512|1023|0" 1 ⟨3, [1 / 2, 1, 0]⟩ [⟨0, 1 / 2⟩, ⟨1, 1⟩, ⟨2, 0⟩] ⟨1, 1⟩ rfl
    processSliderData_eval_512_default (List.Mem.tail _ (List.Mem.head _)) rfl
    rfl rfl (by decide)

/-- C10: a frame that is both count-changing and malformed (first field
above 1023) still mutates the tracker — the count is updated and every
slot reset to the sentinel — before being discarded with zero events, so
any following accepted frame of the new count emits one event per index. -/
theorem claim_C10_discard_is_not_atomic (cfg : DeejConfig)
    (st : SerialState) (payload : String) (f : String) (rest : List String)
    (hsplit : goSplit payload '|' = f :: rest)
    (hne : (f :: rest).length ≠ st.lastKnownNumSliders)
    (hbig : 1023 < goAtoi f) :
    processSliderData cfg st payload =
      (⟨(f :: rest).length, List.replicate (f :: rest).length (-1)⟩, []) ∧
    ∀ p2 : String, (goSplit p2 '|').length = (f :: rest).length →
      goAtoi ((goSplit p2 '|').headD "") ≤ 1023 →
      (processSliderData cfg
        ⟨(f :: rest).length, List.replicate (f :: rest).length (-1)⟩ p2).2.map
          (·.sliderID) = List.range (f :: rest).length := by
  constructor
  · rw [processSliderData_abort cfg st payload f rest hsplit hbig,
      resyncSliderState_of_ne st _ hne]
  · intro p2 hl2 hf2
    have hres2 : resyncSliderState
        ⟨(f :: rest).length, List.replicate (f :: rest).length (-1)⟩
        (goSplit p2 '|').length =
        ⟨(f :: rest).length, List.replicate (f :: rest).length (-1)⟩ :=
      resyncSliderState_of_eq _ _ (by rw [hl2])
    obtain ⟨_, hev, _, _⟩ := processSliderData_spec cfg _ p2
      (by rw [hres2]; simp [hl2]) hf2
    rw [hev, hres2]
    rw [newEventsFrom_allUnset cfg _ 0 _
      (fun j h1 h2 => getD_replicate_q (-1) 0 (by rw [← hl2]; omega))]
    rw [List.range_eq_range', hl2]

/-- Witness for C10: the malformed count-changing frame `"4558|925|41"`
still resets the tracker to three unset slots, and the next accepted
3-reading frame `"1|2|3"` emits for all three indices. -/
theorem claim_C10_witness :
    processSliderData cfgDefault ⟨0, []⟩ "4558|925|41" =
      (⟨3, List.replicate 3 (-1)⟩, []) ∧
    (processSliderData cfgDefault ⟨3, List.replicate 3 (-1)⟩ "1|2|3").2.map
      (·.sliderID) = List.range 3 := by
  have h := claim_C10_discard_is_not_atomic cfgDefault ⟨0, []⟩ "4558|925|41"
    "4558" ["925", "41"] (by decide) (by decide) (by decide)
  exact ⟨h.1, h.2 "1|2|3" (by decide) (by decide)⟩

end Deej
